import Mathlib

/-
Verification of the Quorum create_database / mer_database core.

Shallow embedding of:
  - the packed value codec inside hash_with_quality.add (the merge step),
  - the per-read scanning loop of quality_mer_counter.start,
  - the table record operation hash_with_quality.add over an abstract
    insert-or-find key store,
  - the serialization order of the two hash_with_quality.write variants and
    the section reconstruction performed by database_query,
  - the startup configuration checks of main,
  - database_query.get_val.

Machine integers are modelled as Nat; the packed values handled by the codec
fit in bits+1 <= 64 bits, so no 64-bit wraparound can occur on the branches
the code takes, and plain Nat arithmetic is faithful.
-/

namespace Quorum

/-! ## Packed value codec (hash_with_quality.add merge step)

Source (both copies are identical here):
  max_val_((uint64_t)-1 >> (sizeof(uint64_t) * 8 - bits))
  do {
    oval = nval;
    if((oval & 1) > quality)       nval = 3;
    else if((oval >> 1) == max_val_) return true;   -- value left unchanged
    else                            nval = oval + 2;
  } while(!entry.set(nval));
-/

/-- The member max_val_, computed as (uint64_t)-1 >> (64 - bits). -/
def maxVal64 (bits : Nat) : Nat := (2 ^ 64 - 1) >>> (64 - bits)

/-- One pass of the read-modify-write loop in hash_with_quality.add: the new
packed value computed from the old packed value and the quality class.  In the
saturation branch the code returns with the stored value unchanged, which is
modelled by returning oval itself. -/
def merge (maxv oval quality : Nat) : Nat :=
  if oval &&& 1 > quality then 3
  else if oval >>> 1 = maxv then oval
  else oval + 2

theorem maxVal64_eq (bits : Nat) (h : bits ≤ 64) : maxVal64 bits = 2 ^ bits - 1 := by
  unfold maxVal64
  rw [Nat.shiftRight_eq_div_pow]
  have hpow : (2 : Nat) ^ bits * 2 ^ (64 - bits) = 2 ^ 64 := by
    rw [← pow_add]
    congr 1
    omega
  have hb : (0 : Nat) < 2 ^ (64 - bits) := pow_pos (by norm_num) _
  have hbits : (0 : Nat) < 2 ^ bits := pow_pos (by norm_num) _
  have hN : (2 : Nat) ^ 64 = 18446744073709551616 := by norm_num
  apply Nat.div_eq_of_lt_le
  · rw [Nat.sub_mul, one_mul, hpow]
    omega
  · rw [Nat.sub_add_cancel hbits, hpow]
    omega

theorem maxVal64_pos (bits : Nat) (h1 : 1 ≤ bits) (h2 : bits ≤ 64) :
    1 ≤ maxVal64 bits := by
  rw [maxVal64_eq bits h2]
  have : (2 : Nat) ^ 1 ≤ 2 ^ bits := Nat.pow_le_pow_right (by norm_num) h1
  omega

theorem maxVal64_ge_three (bits : Nat) (h1 : 2 ≤ bits) (h2 : bits ≤ 64) :
    3 ≤ maxVal64 bits := by
  rw [maxVal64_eq bits h2]
  have : (2 : Nat) ^ 2 ≤ 2 ^ bits := Nat.pow_le_pow_right (by norm_num) h1
  omega

theorem merge_and_one (v : Nat) : v &&& 1 = v % 2 := Nat.and_one_is_mod v

theorem merge_shiftRight_one (v : Nat) : v >>> 1 = v / 2 := by
  rw [Nat.shiftRight_eq_div_pow, pow_one]

/-- C1: the merge step inside add has exactly three branches in this order:
if the stored flag (old value mod 2) exceeds the quality class the result is
the literal 3; otherwise if the counter (old value divided by 2) equals the
max counter 2 to the bits minus 1 the old value is returned unchanged;
otherwise the result is the old value plus 2.  The three cases are exhaustive,
so no other branch exists. -/
theorem merge_branch_structure (bits v q : Nat) (hb1 : 1 ≤ bits) (hb2 : bits ≤ 63) :
    (v % 2 > q → merge (maxVal64 bits) v q = 3) ∧
    (v % 2 ≤ q → v / 2 = 2 ^ bits - 1 → merge (maxVal64 bits) v q = v) ∧
    (v % 2 ≤ q → v / 2 ≠ 2 ^ bits - 1 → merge (maxVal64 bits) v q = v + 2) := by
  have hmax : maxVal64 bits = 2 ^ bits - 1 := maxVal64_eq bits (by omega)
  refine ⟨?_, ?_, ?_⟩
  · intro h
    unfold merge
    rw [merge_and_one, if_pos h]
  · intro h1 h2
    unfold merge
    rw [merge_and_one, if_neg (by omega), merge_shiftRight_one, hmax, if_pos h2]
  · intro h1 h2
    unfold merge
    rw [merge_and_one, if_neg (by omega), merge_shiftRight_one, hmax, if_neg h2]

theorem merge_branch_structure_witness :
    merge (maxVal64 8) 3 0 = 3 :=
  (merge_branch_structure 8 3 0 (by decide) (by decide)).1 (by decide)

/-- C4 counterexample: starting from a fresh slot value 0 with bits = 8,
applying merge with quality classes 0, then 1, then 0 does not yield the
literal 3: the flag stays 0 throughout, so the downgrade branch never fires
and the result is 6. -/
theorem merge_downgrade_cex :
    merge (maxVal64 8) (merge (maxVal64 8) (merge (maxVal64 8) 0 0) 1) 0 ≠ 3 := by
  decide

/-- C4 (amended): starting from a fresh slot value 0 with 2 <= bits <= 63,
classes 0 then 0 yield value 4 (counter 2, flag 0); classes 0, then 1, then 0
yield value 6 (counter 3, flag 0) and not the literal 3, because the normal
increment branch never raises the stored flag, so the downgrade branch is not
triggered by this sequence. -/
theorem merge_from_fresh (bits : Nat) (h2 : 2 ≤ bits) (h63 : bits ≤ 63) :
    merge (maxVal64 bits) (merge (maxVal64 bits) 0 0) 0 = 4 ∧
    merge (maxVal64 bits) (merge (maxVal64 bits) (merge (maxVal64 bits) 0 0) 1) 0 = 6 := by
  have h3 : 3 ≤ maxVal64 bits := maxVal64_ge_three bits h2 (by omega)
  have e1 : merge (maxVal64 bits) 0 0 = 2 := by
    unfold merge
    rw [if_neg (by decide), if_neg (by
      have h : (0 : Nat) >>> 1 = 0 := by decide
      omega)]
  have e2 : merge (maxVal64 bits) 2 0 = 4 := by
    unfold merge
    rw [if_neg (by decide), if_neg (by
      have h : (2 : Nat) >>> 1 = 1 := by decide
      omega)]
  have e3 : merge (maxVal64 bits) 2 1 = 4 := by
    unfold merge
    rw [if_neg (by decide), if_neg (by
      have h : (2 : Nat) >>> 1 = 1 := by decide
      omega)]
  have e4 : merge (maxVal64 bits) 4 0 = 6 := by
    unfold merge
    rw [if_neg (by decide), if_neg (by
      have h : (4 : Nat) >>> 1 = 2 := by decide
      omega)]
  rw [e1, e2, e3, e4]
  exact ⟨rfl, rfl⟩

theorem merge_from_fresh_witness :
    merge (maxVal64 8) (merge (maxVal64 8) 0 0) 0 = 4 ∧
    merge (maxVal64 8) (merge (maxVal64 8) (merge (maxVal64 8) 0 0) 1) 0 = 6 :=
  merge_from_fresh 8 (by decide) (by decide)

/-- C5 counterexample: with bits = 2 the packed value 7 has a saturated
counter (7 divided by 2 equals 3, the max counter), yet merge with quality
class 0 does not return it unchanged: the downgrade branch fires first and
yields 3. -/
theorem merge_saturated_cex :
    merge (maxVal64 2) 7 0 = 3 ∧ (3 : Nat) ≠ 7 := by
  decide

/-- C5 (amended): a packed value whose counter equals the max counter is a
fixed point of merge for every quality class that does not trigger the
downgrade branch (stored flag at most the quality class), and stays unchanged
under any number of further such merges. -/
theorem merge_saturated_fixed (bits v q : Nat)
    (hsat : v >>> 1 = maxVal64 bits) (hq : v &&& 1 ≤ q) :
    merge (maxVal64 bits) v q = v ∧
    ∀ n : Nat, (fun w => merge (maxVal64 bits) w q)^[n] v = v := by
  have hfix : merge (maxVal64 bits) v q = v := by
    unfold merge
    rw [if_neg (by omega), if_pos hsat]
  refine ⟨hfix, ?_⟩
  intro n
  induction n with
  | zero => rfl
  | succ n ih => rw [Function.iterate_succ_apply', ih, hfix]

theorem merge_saturated_fixed_witness :
    merge (maxVal64 2) 7 1 = 7 :=
  (merge_saturated_fixed 2 7 1 (by decide) (by decide)).1

/-! ## Quality-aware count table (hash_with_quality over an abstract key store)

The jellyfish large_hash array is an external collaborator: keys_.set(key,
&is_new, &id) either finds or inserts the key and yields a stable slot id, or
returns false on capacity exhaustion.  It is modelled as a capacity-bounded
list of keys whose slot id is the position in the list. -/

/-- Model of keys_.set: find the key and report its slot, insert it at the
next free slot when room remains, or fail (none) when the store is full.
Returns (is_new, id, updated key list). -/
def keysSet (cap : Nat) (keys : List Nat) (key : Nat) :
    Option (Bool × Nat × List Nat) :=
  if key ∈ keys then some (false, keys.indexOf key, keys)
  else if keys.length < cap then some (true, keys.length, keys ++ [key])
  else none

structure Table where
  capacity : Nat
  maxv : Nat
  keys : List Nat
  vals : List Nat
deriving DecidableEq

/-- A freshly constructed hash_with_quality: no keys, every packed value 0. -/
def Table.fresh (cap bits : Nat) : Table :=
  ⟨cap, maxVal64 bits, [], List.replicate cap 0⟩

/-- hash_with_quality.add: insert-or-find the key, then apply the merge step
to the value slot (sequentially the compare-and-swap loop runs once; the
saturation branch returns with the slot unchanged, and merge returns the old
value there).  Returns the success flag and the updated table. -/
def Table.add (t : Table) (key quality : Nat) : Bool × Table :=
  match keysSet t.capacity t.keys key with
  | none => (false, t)
  | some (_, id, keys) =>
    let oval := t.vals.getD id 0
    let nval := merge t.maxv oval quality
    (true, { t with keys := keys, vals := t.vals.set id nval })

/-- C8: hash_with_quality.add returns false exactly when the key store
insert-or-find fails, and the key store fails exactly on capacity exhaustion
(key absent and no free slot); in every other case, the saturation no-op
included, add returns true. -/
theorem add_false_iff_full (t : Table) (key q : Nat) :
    ((t.add key q).1 = false ↔ keysSet t.capacity t.keys key = none) ∧
    (keysSet t.capacity t.keys key = none ↔
      key ∉ t.keys ∧ t.capacity ≤ t.keys.length) := by
  constructor
  · unfold Table.add
    cases h : keysSet t.capacity t.keys key with
    | none => simp [h]
    | some x =>
      obtain ⟨b, id, ks⟩ := x
      simp [h]
  · unfold keysSet
    split_ifs with hmem hcap
    · simp [hmem]
    · simp [hmem]
      omega
    · simp [hmem]
      omega

/-! ## Per-read scanning loop (quality_mer_counter.start)

Source, reproduced with its literal loop header:

  auto         base     = seq.begin();
  auto         qual     = quals.begin();
  unsigned int low_len  = 0;
  unsigned int high_len = 0;
  for( ; base != seq.begin(); ++base, ++base) {
    int code = mer_dna::code(*base);
    if(mer_dna::not_dna(code)) { high_len = low_len = 0; continue; }
    m.shift_left(code);
    rm.shift_right(mer_dna::rev_code(code));
    ++low_len;
    if(*qual > qual_thresh_) ++high_len; else high_len = 0;
    if(low_len >= mer_dna::k())
      ary_.add(m < rm ? m : rm, high_len >= mer_dna::k());
  }

The iterator base is modelled as a position into the sequence, with the
begin iterator at position 0; the loop guard is base != seq.begin(), and the
update ++base, ++base advances base twice and never advances qual. -/

/-- mer_dna.code: the 2-bit code of a DNA base, none when not_dna holds. -/
def baseCode (c : Char) : Option Nat :=
  if c = 'A' ∨ c = 'a' then some 0
  else if c = 'C' ∨ c = 'c' then some 1
  else if c = 'G' ∨ c = 'g' then some 2
  else if c = 'T' ∨ c = 't' then some 3
  else none

structure ScanState where
  m : Nat
  rm : Nat
  lowLen : Nat
  highLen : Nat
deriving DecidableEq

/-- The loop body at iterator position pos: qual stays at position 0 because
the loop update increments base twice instead of advancing qual.  Returns the
new scan state and the observation passed to add, when one is emitted. -/
def scanBody (k : Nat) (thresh : Char) (seq quals : List Char) (pos : Nat)
    (st : ScanState) : ScanState × List (Nat × Nat) :=
  match baseCode (seq.getD pos 'N') with
  | none => ({ st with lowLen := 0, highLen := 0 }, [])
  | some code =>
    let m := (st.m * 4 + code) % 4 ^ k
    let rm := st.rm / 4 + (3 - code) * 4 ^ (k - 1)
    let lowLen := st.lowLen + 1
    let highLen := if thresh < quals.getD 0 'N' then st.highLen + 1 else 0
    let st : ScanState := ⟨m, rm, lowLen, highLen⟩
    if k ≤ lowLen then (st, [(min m rm, if k ≤ highLen then 1 else 0)])
    else (st, [])

/-- The for loop: run the body while base (pos) differs from seq.begin()
(position 0), advancing base twice per iteration; fuel bounds the iteration
count. -/
def scanLoop (k : Nat) (thresh : Char) (seq quals : List Char) :
    Nat → Nat → ScanState → List (Nat × Nat)
  | 0, _, _ => []
  | fuel + 1, pos, st =>
    if pos = 0 then []
    else
      let r := scanBody k thresh seq quals pos st
      r.2 ++ scanLoop k thresh seq quals fuel (pos + 2) r.1

/-- The per-read portion of quality_mer_counter.start: the observations the
scan of one read emits to hash_with_quality.add. -/
def processRead (k : Nat) (thresh : Char) (seq quals : List Char) :
    List (Nat × Nat) :=
  scanLoop k thresh seq quals (seq.length + 1) 0 ⟨0, 0, 0, 0⟩

/-- Ingesting one read: every emitted observation is recorded in the table
through hash_with_quality.add. -/
def ingestRead (t : Table) (k : Nat) (thresh : Char) (seq quals : List Char) :
    Table :=
  (processRead k thresh seq quals).foldl (fun acc ob => (acc.add ob.1 ob.2).2) t

/-- C2: the per-base loop guard base != seq.begin() is false at entry, since
base is initialized to seq.begin(); the body runs zero times, so the scan of
any read emits no observations and add never changes the table. -/
theorem scan_loop_body_never_runs (k : Nat) (thresh : Char)
    (seq quals : List Char) :
    processRead k thresh seq quals = [] ∧
    ∀ t : Table, ingestRead t k thresh seq quals = t := by
  constructor
  · simp [processRead, scanLoop]
  · intro t
    simp [ingestRead, processRead, scanLoop]

/-- C3 counterexample: with k = 3, ample capacity (16 slots, bits = 8) and a
threshold every quality character exceeds, ingesting the read ACGT with
all-high qualities emits no observation, leaves the table in its fresh state,
and occupies zero slots, not two slots of packed value 3. -/
theorem read_acgt_cex :
    processRead 3 '!' "ACGT".toList "IIII".toList = [] ∧
    (ingestRead (Table.fresh 16 8) 3 '!' "ACGT".toList "IIII".toList).keys.length ≠ 2 := by
  decide

/-- C3 (amended): with k = 3, ample capacity and an all-qualifying threshold,
ingesting the single read ACGT with all-high quality emits no observations
and leaves the table exactly in its fresh state, because the per-base loop of
quality_mer_counter.start executes zero times. -/
theorem read_acgt_amended :
    processRead 3 '!' "ACGT".toList "IIII".toList = [] ∧
    ingestRead (Table.fresh 16 8) 3 '!' "ACGT".toList "IIII".toList =
      Table.fresh 16 8 := by
  decide

/-! ## Serialization and reconstruction

Two copies of hash_with_quality.write exist and disagree:

  create_database (part_000):   vals_.write(os); keys_.write(os);
  mer_database.hpp:             keys_.write(os); vals_.write(os);

database_query maps the file body (the bytes after the header offset) as

  keys_(file_.base() + header_.offset(), header_.key_bytes(), ...)
  vals_(file_.base() + header_.offset() + header_.key_bytes(),
        header_.value_bytes(), ...)

so it expects the key section first and the value section after key_bytes.
The atomic bits array and the key store serialize their raw bit-packed
memory; sections are modelled as bit lists and section sizes counted in bits
rather than bytes (a uniform change of unit). -/

/-- The w low bits of n, least significant first. -/
def toBits : Nat → Nat → List Bool
  | 0, _ => []
  | w + 1, n => (decide (n % 2 = 1)) :: toBits w (n / 2)

/-- Read back a little-endian bit list as a number. -/
def fromBits (l : List Bool) : Nat :=
  l.foldr (fun b acc => 2 * acc + (if b then 1 else 0)) 0

/-- The raw memory of the value array: each packed value in a bits+1 wide
field, consecutively. -/
def valsBits (bits : Nat) (vals : List Nat) : List Bool :=
  (vals.map (toBits (bits + 1))).flatten

/-- The raw memory of the key store: each key in a keyLen wide field. -/
def keysBits (keyLen : Nat) (keys : List Nat) : List Bool :=
  (keys.map (toBits keyLen)).flatten

/-- hash_with_quality.write as compiled into create_database (part_000):
value section first, key section second. -/
def writeCreate (bits keyLen : Nat) (vals keys : List Nat) : List Bool :=
  valsBits bits vals ++ keysBits keyLen keys

/-- hash_with_quality.write as defined in mer_database.hpp: key section
first, value section second. -/
def writeDatabase (bits keyLen : Nat) (vals keys : List Nat) : List Bool :=
  keysBits keyLen keys ++ valsBits bits vals

/-- database_query: the key section is mapped at the header offset. -/
def queryKeysSection (body : List Bool) (keyBitsLen : Nat) : List Bool :=
  body.take keyBitsLen

/-- database_query: the value section is mapped key_bytes past the offset. -/
def queryValsSection (body : List Bool) (keyBitsLen valBitsLen : Nat) : List Bool :=
  (body.drop keyBitsLen).take valBitsLen

/-- Entry j of a section of width-wide fields. -/
def getEntry (width : Nat) (sec : List Bool) (j : Nat) : Nat :=
  fromBits ((sec.drop (j * width)).take width)

theorem toBits_length (w n : Nat) : (toBits w n).length = w := by
  induction w generalizing n with
  | zero => rfl
  | succ w ih => simp [toBits, ih]

theorem valsBits_cons (bits v : Nat) (vs : List Nat) :
    valsBits bits (v :: vs) = toBits (bits + 1) v ++ valsBits bits vs := by
  simp [valsBits]

theorem fromBits_toBits (w n : Nat) (h : n < 2 ^ w) :
    fromBits (toBits w n) = n := by
  induction w generalizing n with
  | zero =>
    rw [pow_zero] at h
    simp [toBits, fromBits]
    omega
  | succ w ih =>
    have hdiv : n / 2 < 2 ^ w := by
      rw [Nat.div_lt_iff_lt_mul (by norm_num)]
      calc n < 2 ^ (w + 1) := h
        _ = 2 ^ w * 2 := by ring
    have ihh := ih (n / 2) hdiv
    show fromBits ((decide (n % 2 = 1)) :: toBits w (n / 2)) = n
    unfold fromBits at ihh ⊢
    simp only [List.foldr_cons]
    rw [ihh]
    rcases Nat.mod_two_eq_zero_or_one n with he | ho
    · simp [he]
      omega
    · simp [ho]
      omega

/-- Extracting entry j of the value section recovers the packed value that
was serialized there, for in-range entries. -/
theorem getEntry_valsBits (bits : Nat) (vals : List Nat) (j : Nat)
    (hv : ∀ v ∈ vals, v < 2 ^ (bits + 1)) (hj : j < vals.length) :
    getEntry (bits + 1) (valsBits bits vals) j = vals.getD j 0 := by
  induction vals generalizing j with
  | nil => simp at hj
  | cons v vs ih =>
    have hlen : (toBits (bits + 1) v).length = bits + 1 := toBits_length _ _
    cases j with
    | zero =>
      rw [valsBits_cons, List.getD_cons_zero]
      unfold getEntry
      rw [Nat.zero_mul, List.drop_zero, List.take_left' hlen]
      exact fromBits_toBits _ _ (hv v (List.mem_cons_self _ _))
    | succ j =>
      have hj' : j < vs.length := by simpa using hj
      have ihj := ih j (fun x hx => hv x (List.mem_cons_of_mem _ hx)) hj'
      rw [valsBits_cons, List.getD_cons_succ, ← ihj]
      unfold getEntry
      congr 1
      rw [show (j + 1) * (bits + 1) = (toBits (bits + 1) v).length + j * (bits + 1) by
        rw [hlen]; ring]
      rw [List.drop_append]

theorem valsBits_length (bits : Nat) (vals : List Nat) :
    (valsBits bits vals).length = vals.length * (bits + 1) := by
  induction vals with
  | nil => simp [valsBits]
  | cons v vs ih =>
    rw [valsBits_cons]
    simp [toBits_length, ih]
    ring

/-- Intended round trip: the mer_database.hpp write order (keys then values)
agrees with the offsets database_query uses, so the query maps back exactly
the value section and every packed value is recovered. -/
theorem writeDatabase_query_roundtrip (bits keyLen : Nat)
    (vals keys : List Nat) (j : Nat)
    (hv : ∀ v ∈ vals, v < 2 ^ (bits + 1)) (hj : j < vals.length) :
    getEntry (bits + 1)
      (queryValsSection (writeDatabase bits keyLen vals keys)
        (keysBits keyLen keys).length (valsBits bits vals).length) j
      = vals.getD j 0 := by
  unfold queryValsSection writeDatabase
  rw [List.drop_left, List.take_length]
  exact getEntry_valsBits bits vals j hv hj

/-- C6 (code bug): the writer compiled into create_database emits the value
section before the key section, while database_query maps the key section at
the header offset and the value section key_bytes later.  Concretely, with
bits = 1, one slot holding packed value 2 and one 4-bit key 5, reading entry
0 of the value section the query reconstructs yields 1, not the stored 2,
which is recovered from the value section itself. -/
theorem create_write_query_mismatch :
    getEntry 2 (queryValsSection (writeCreate 1 4 [2] [5]) 4 2) 0 = 1 ∧
    getEntry 2 (valsBits 1 [2]) 0 = 2 := by
  decide

/-- C7 counterexample: the hash_with_quality.write of mer_database.hpp does
not serialize the value array first: on a one-slot table it produces the key
section followed by the value section. -/
theorem hpp_write_keys_first_cex :
    writeDatabase 1 4 [2] [5] ≠ valsBits 1 [2] ++ keysBits 4 [5] := by
  decide

/-- C7 (amended): the write compiled into create_database (part_000)
serializes the value array first and the key array second, matching the
section order Header, Value, Key; the write of mer_database.hpp serializes
the key array first and the value array second, which is the order
database_query reconstructs (keys at the offset, values key_bytes later). -/
theorem write_section_orders (bits keyLen : Nat) (vals keys : List Nat) :
    writeCreate bits keyLen vals keys =
      valsBits bits vals ++ keysBits keyLen keys ∧
    queryKeysSection (writeDatabase bits keyLen vals keys)
      (keysBits keyLen keys).length = keysBits keyLen keys ∧
    queryValsSection (writeDatabase bits keyLen vals keys)
      (keysBits keyLen keys).length (valsBits bits vals).length
      = valsBits bits vals := by
  refine ⟨rfl, ?_, ?_⟩
  · unfold queryKeysSection writeDatabase
    exact List.take_left _ _
  · unfold queryValsSection writeDatabase
    rw [List.drop_left, List.take_length]

/-! ## Startup configuration checks (main)

Source:
  if(!args.min_qual_value_given && !args.min_qual_char_given)
    args.error("Either a min-qual-value or min-qual-char must be provided.");
  if(args.min_qual_char_arg.size() != 1)
    args.error("The min-qual-char should be one ASCII character.");
  ...
  if(args.bits_arg < 1 || args.bits_arg > 63)
    args.error("The number of bits should be between 1 and 63");
  std::ofstream output(args.output_arg);
  if(!output.good())
    die << "Failed to open output file ...";

args.error and die abort the process with a non-zero exit before any
ingestion work, so the run is rejected exactly when one of the four
conditions holds.  The parsed argument record is modelled as a structure of
the fields main reads; output_good models whether the output file opened
writable. -/

structure Args where
  min_qual_value_given : Bool
  min_qual_char_given : Bool
  min_qual_char_arg : List Char
  bits_arg : Int
  output_good : Bool

/-- The disjunction of the four fatal checks main performs before ingestion.
Note the min-qual-char length check is not guarded by min_qual_char_given:
it runs on every configuration. -/
def startupRejects (a : Args) : Bool :=
  (!a.min_qual_value_given && !a.min_qual_char_given) ||
  (a.min_qual_char_arg.length != 1) ||
  (decide (a.bits_arg < 1) || decide (a.bits_arg > 63)) ||
  (!a.output_good)

/-- Modelled from the spec: the list of startup violations the spec gives,
with the quality-character violation worded as longer than one character. -/
def specStartupViolation (a : Args) : Bool :=
  (!a.min_qual_value_given && !a.min_qual_char_given) ||
  (decide (a.min_qual_char_arg.length > 1)) ||
  (decide (a.bits_arg < 1) || decide (a.bits_arg > 63)) ||
  (!a.output_good)

/-- A configuration giving only the numeric quality threshold, with an empty
quality-character argument, valid bit width and a writable output. -/
def argsValueOnly : Args :=
  ⟨true, false, [], 8, true⟩

/-- C9 counterexample: main rejects the configuration that gives only the
numeric quality threshold while the quality-character argument is empty,
although none of the violations the claim lists holds there: the length
check compares against one on every configuration, so a length of zero is
also fatal. -/
theorem startup_reject_cex :
    startupRejects argsValueOnly = true ∧
    specStartupViolation argsValueOnly = false := by
  decide

/-- C9 (amended): before any ingestion work, main rejects the configuration
if and only if neither quality threshold form is given, or the
quality-character argument does not consist of exactly one character (the
check runs even when that form was not given), or the bit width lies outside
1 to 63, or the output file is not writable; every other configuration
proceeds to ingestion. -/
theorem startup_rejects_iff (a : Args) :
    startupRejects a = true ↔
      ((a.min_qual_value_given = false ∧ a.min_qual_char_given = false) ∨
       a.min_qual_char_arg.length ≠ 1 ∨
       a.bits_arg < 1 ∨ 63 < a.bits_arg ∨
       a.output_good = false) := by
  unfold startupRejects
  simp [Bool.or_eq_true, Bool.and_eq_true, Bool.not_eq_true', bne_iff_ne,
    decide_eq_true_eq]
  tauto

/-! ## Read-only query (database_query) -/

/-- The state database_query reconstructs from a successfully opened file:
the parsed header fields and the two mapped sections. -/
structure DatabaseQuery where
  bits : Nat
  size : Nat
  keysSection : List Bool
  valsSection : List Bool

/-- database_query.get_val, verbatim: return 1. -/
def DatabaseQuery.get_val (d : DatabaseQuery) (m : Nat) : Nat := 1

/-- C10: for every successfully opened database and every k-mer,
database_query.get_val returns the constant 1, independent of the k-mer and
of the stored table contents. -/
theorem get_val_const (d : DatabaseQuery) (m : Nat) : d.get_val m = 1 := rfl

end Quorum
